import Mathlib

/-!
Verification development for the OPC UA PubSub UADP codec
(`opcua_uadp.py` and the interop encoder of `benchmark_leve.py`).

Modelling conventions (shallow embedding, MicroPython semantics):
* Byte buffers are `List Nat` with every entry below 256.
* Python values reaching the codec are modelled by `PyValue`.  A Python
  float is identified with the IEEE-754 bit pattern it serializes to at
  the width it is used (`ustruct.pack` with format f or d); rounding a
  double to single precision is not modelled, only values already
  representable at the serialized width.  A Python `str` is identified
  with its UTF-8 byte sequence (MicroPython `bytes.decode` performs no
  validation, so string decode is exactly the byte slice).
* `ustruct.pack` under MicroPython truncates out-of-range integers to
  the field width, which we model with `% 2^(8*w)` (two's complement via
  `Int.emod`).  `ustruct.unpack_from` raises when the buffer is too
  short, modelled by `Option` (`none` = raised exception / returned
  `None`).  `bytearray.append` raises unless `0 <= x < 256`.
* `time.time()` is modelled by an injected parameter `now` threaded to
  the places that read the clock.
-/

namespace OpcuaUadp

/-- Byte buffers as lists of naturals (each below 256 by construction). -/
abbrev Bytes := List Nat

/-- Little-endian byte encoding of `v` into exactly `w` bytes
(the low `8*w` bits of `v`, as `ustruct.pack` emits for unsigned formats). -/
def leBytes : Nat → Nat → Bytes
  | 0, _ => []
  | w + 1, v => v % 256 :: leBytes w (v / 256)

/-- Little-endian value of a byte list (inverse of `leBytes` up to width). -/
def leVal : Bytes → Nat
  | [] => 0
  | b :: rest => b + 256 * leVal rest

/-- Reads `w` bytes at `offset`, failing (like `ustruct.unpack_from`) when the
buffer holds fewer than `offset + w` bytes. -/
def readBytes (data : Bytes) (offset w : Nat) : Option Bytes :=
  if offset + w ≤ data.length then some ((data.drop offset).take w) else none

/-- Two's-complement reinterpretation of an unsigned value `u` read from
`w` bytes: the signed value whose `8*w`-bit pattern is `u`. -/
def asSigned (w : Nat) (u : Nat) : Int :=
  if u < 2 ^ (8 * w - 1) then (u : Int) else (u : Int) - 2 ^ (8 * w)

/-- Two's-complement byte image of an integer at width `w`
(MicroPython `ustruct.pack` truncates silently, hence the `emod`). -/
def leBytesI (w : Nat) (i : Int) : Bytes :=
  leBytes w (i % ((2 : Int) ^ (8 * w))).toNat

/-- Models `bytearray.append(x)`: a single byte, failing (raising) when the
value is outside `0..255`. -/
def appendByte (n : Nat) : Option Bytes :=
  if n < 256 then some [n] else none

/-- Models `bytearray.append(x)` for a possibly negative Python int. -/
def appendByteI (i : Int) : Option Bytes :=
  if 0 ≤ i ∧ i < 256 then some [i.toNat] else none

/-- Python values as the UADP codec receives them.  Floats carry the
IEEE-754 bit pattern at the width they are serialized with; strings carry
their UTF-8 bytes; `none` is Python `None`. -/
inductive PyValue : Type
  | none : PyValue
  | bool (b : Bool) : PyValue
  | int (i : Int) : PyValue
  | float (bits : Nat) : PyValue
  | str (utf8 : Bytes) : PyValue
  | bytes (bs : Bytes) : PyValue
  deriving DecidableEq, Repr

/-- Decimal ASCII digits of a natural number (Python `str` of a nonnegative
int), via the core decimal printer. -/
def natDecBytes (n : Nat) : Bytes :=
  (Nat.toDigits 10 n).map Char.toNat

/-- Models Python `str(value)` as UTF-8 bytes, for the value shapes whose
textual form the codec can meet.  Float and bytes repr formatting is not
modelled (no claim exercises it). -/
def pyStr : PyValue → Option Bytes
  | PyValue.none => some [78, 111, 110, 101]
  | PyValue.bool b => some (if b then [84, 114, 117, 101] else [70, 97, 108, 115, 101])
  | PyValue.int i => some (if i < 0 then 45 :: natDecBytes i.natAbs else natDecBytes i.toNat)
  | PyValue.str s => some s
  | PyValue.float _ => Option.none
  | PyValue.bytes _ => Option.none

/-- OPC UA Part 6 built-in type identifiers (`class OPCUATypes`). -/
def OPCUATypes.BOOLEAN : Nat := 1
def OPCUATypes.SBYTE : Nat := 2
def OPCUATypes.BYTE : Nat := 3
def OPCUATypes.INT16 : Nat := 4
def OPCUATypes.UINT16 : Nat := 5
def OPCUATypes.INT32 : Nat := 6
def OPCUATypes.UINT32 : Nat := 7
def OPCUATypes.INT64 : Nat := 8
def OPCUATypes.UINT64 : Nat := 9
def OPCUATypes.FLOAT : Nat := 10
def OPCUATypes.DOUBLE : Nat := 11
def OPCUATypes.STRING : Nat := 12
def OPCUATypes.DATETIME : Nat := 13
def OPCUATypes.GUID : Nat := 14
def OPCUATypes.BYTESTRING : Nat := 15

/-- Type inference `OPCUATypes.from_python`: Python checks `bool` before
`int` (bool is an int subclass), then narrows signed integer ranges, then
float, str, bytes, with String as the final fallback. -/
def OPCUATypes.from_python : PyValue → Nat
  | PyValue.bool _ => OPCUATypes.BOOLEAN
  | PyValue.int i =>
      if -128 ≤ i ∧ i ≤ 127 then OPCUATypes.SBYTE
      else if -32768 ≤ i ∧ i ≤ 32767 then OPCUATypes.INT16
      else if -2147483648 ≤ i ∧ i ≤ 2147483647 then OPCUATypes.INT32
      else OPCUATypes.INT64
  | PyValue.float _ => OPCUATypes.FLOAT
  | PyValue.str _ => OPCUATypes.STRING
  | PyValue.bytes _ => OPCUATypes.BYTESTRING
  | PyValue.none => OPCUATypes.STRING

/-- StatusCode constants (`class StatusCode`). -/
def StatusCode.GOOD : Nat := 0x00000000
def StatusCode.UNCERTAIN : Nat := 0x40000000
def StatusCode.BAD : Nat := 0x80000000

/-- Classification by the two most significant bits (`StatusCode.is_good`). -/
def StatusCode.is_good (code : Nat) : Bool :=
  code &&& 0xC0000000 == 0x00000000

/-- Python truthiness (`1 if value else 0`), for the shapes the codec meets.
Truthiness of a float depends on its numeric value and is not modelled. -/
def pyTruthy : PyValue → Option Bool
  | PyValue.none => some false
  | PyValue.bool b => some b
  | PyValue.int i => some (i != 0)
  | PyValue.float _ => Option.none
  | PyValue.str s => some (s != [])
  | PyValue.bytes bs => some (bs != [])

/-- View of a Python value as an int for `ustruct.pack` integer formats
(Python bools are ints: `True` packs as 1). -/
def intOf : PyValue → Option Int
  | PyValue.int i => some i
  | PyValue.bool b => some (if b then 1 else 0)
  | _ => Option.none

namespace UADPEncoder

/-- `encode_boolean`: one byte, `1 if value else 0`. -/
def encode_boolean (value : PyValue) : Option Bytes :=
  (pyTruthy value).map (fun b => [if b then 1 else 0])

/-- `encode_sbyte`: `pack` with format b (one byte, two's complement). -/
def encode_sbyte (value : PyValue) : Option Bytes :=
  (intOf value).map (leBytesI 1)

/-- `encode_byte`: `pack` with format B. -/
def encode_byte (value : PyValue) : Option Bytes :=
  (intOf value).map (leBytesI 1)

/-- `encode_int16`: `pack` with format h. -/
def encode_int16 (value : PyValue) : Option Bytes :=
  (intOf value).map (leBytesI 2)

/-- `encode_uint16`: `pack` with format H. -/
def encode_uint16 (value : PyValue) : Option Bytes :=
  (intOf value).map (leBytesI 2)

/-- `encode_int32`: `pack` with format i. -/
def encode_int32 (value : PyValue) : Option Bytes :=
  (intOf value).map (leBytesI 4)

/-- `encode_uint32`: `pack` with format I. -/
def encode_uint32 (value : PyValue) : Option Bytes :=
  (intOf value).map (leBytesI 4)

/-- `encode_int64`: `pack` with format q. -/
def encode_int64 (value : PyValue) : Option Bytes :=
  (intOf value).map (leBytesI 8)

/-- `encode_uint64`: `pack` with format Q. -/
def encode_uint64 (value : PyValue) : Option Bytes :=
  (intOf value).map (leBytesI 8)

/-- `encode_float`: 32-bit IEEE 754, i.e. the value's single-precision bit
pattern, little-endian. -/
def encode_float (value : PyValue) : Option Bytes :=
  match value with
  | PyValue.float bits => some (leBytes 4 bits)
  | _ => Option.none

/-- `encode_double`: 64-bit IEEE 754 bit pattern, little-endian. -/
def encode_double (value : PyValue) : Option Bytes :=
  match value with
  | PyValue.float bits => some (leBytes 8 bits)
  | _ => Option.none

/-- `encode_string`: signed 32-bit length then UTF-8 bytes; `None` encodes
as length −1 with no payload. -/
def encode_string (value : PyValue) : Option Bytes :=
  match value with
  | PyValue.none => some (leBytesI 4 (-1))
  | PyValue.str s => some (leBytesI 4 s.length ++ s)
  | _ => Option.none

/-- `encode_datetime`: 64-bit FILETIME tick count; with no explicit
timestamp the current time is converted (`(time.time() + 946684800 +
11644473600) * 10000000`), with `now` the injected `time.time()` value. -/
def encode_datetime (now : Nat) (timestamp : PyValue) : Option Bytes :=
  match timestamp with
  | PyValue.none => some (leBytes 8 ((now + 946684800 + 11644473600) * 10000000))
  | PyValue.int i => some (leBytesI 8 i)
  | _ => Option.none

/-- `encode_bytestring`: signed 32-bit length then raw bytes; `None`
encodes as length −1. -/
def encode_bytestring (value : PyValue) : Option Bytes :=
  match value with
  | PyValue.none => some (leBytesI 4 (-1))
  | PyValue.bytes bs => some (leBytesI 4 bs.length ++ bs)
  | _ => Option.none

/-- `encode_status_code`: `pack` with format I of the 32-bit code. -/
def encode_status_code (code : Nat) : Bytes :=
  leBytes 4 code

/-- `encode_value`: dispatch on the (possibly inferred) type id; unknown
type ids fall back to encoding `str(value)` as a String. -/
def encode_value (now : Nat) (value : PyValue) (type_id? : Option Nat) : Option Bytes :=
  let type_id := type_id?.getD (OPCUATypes.from_python value)
  if type_id = OPCUATypes.BOOLEAN then encode_boolean value
  else if type_id = OPCUATypes.SBYTE then encode_sbyte value
  else if type_id = OPCUATypes.BYTE then encode_byte value
  else if type_id = OPCUATypes.INT16 then encode_int16 value
  else if type_id = OPCUATypes.UINT16 then encode_uint16 value
  else if type_id = OPCUATypes.INT32 then encode_int32 value
  else if type_id = OPCUATypes.UINT32 then encode_uint32 value
  else if type_id = OPCUATypes.INT64 then encode_int64 value
  else if type_id = OPCUATypes.UINT64 then encode_uint64 value
  else if type_id = OPCUATypes.FLOAT then encode_float value
  else if type_id = OPCUATypes.DOUBLE then encode_double value
  else if type_id = OPCUATypes.STRING then encode_string value
  else if type_id = OPCUATypes.DATETIME then encode_datetime now value
  else if type_id = OPCUATypes.BYTESTRING then encode_bytestring value
  else (pyStr value).bind (fun s => encode_string (PyValue.str s))

end UADPEncoder

namespace UADPDecoder

/-- `decode_boolean`: one byte, nonzero means true. -/
def decode_boolean (data : Bytes) (offset : Nat) : Option (PyValue × Nat) :=
  (readBytes data offset 1).map (fun bs => (PyValue.bool (leVal bs != 0), offset + 1))

/-- `decode_sbyte`: one byte, two's complement. -/
def decode_sbyte (data : Bytes) (offset : Nat) : Option (PyValue × Nat) :=
  (readBytes data offset 1).map (fun bs => (PyValue.int (asSigned 1 (leVal bs)), offset + 1))

/-- `decode_byte`: one unsigned byte. -/
def decode_byte (data : Bytes) (offset : Nat) : Option (PyValue × Nat) :=
  (readBytes data offset 1).map (fun bs => (PyValue.int (leVal bs), offset + 1))

/-- `decode_int16`: two bytes, two's complement, little-endian. -/
def decode_int16 (data : Bytes) (offset : Nat) : Option (PyValue × Nat) :=
  (readBytes data offset 2).map (fun bs => (PyValue.int (asSigned 2 (leVal bs)), offset + 2))

/-- `decode_uint16`: two bytes, unsigned, little-endian. -/
def decode_uint16 (data : Bytes) (offset : Nat) : Option (PyValue × Nat) :=
  (readBytes data offset 2).map (fun bs => (PyValue.int (leVal bs), offset + 2))

/-- `decode_int32`: four bytes, two's complement, little-endian. -/
def decode_int32 (data : Bytes) (offset : Nat) : Option (PyValue × Nat) :=
  (readBytes data offset 4).map (fun bs => (PyValue.int (asSigned 4 (leVal bs)), offset + 4))

/-- `decode_uint32`: four bytes, unsigned, little-endian. -/
def decode_uint32 (data : Bytes) (offset : Nat) : Option (PyValue × Nat) :=
  (readBytes data offset 4).map (fun bs => (PyValue.int (leVal bs), offset + 4))

/-- `decode_int64`: eight bytes, two's complement, little-endian. -/
def decode_int64 (data : Bytes) (offset : Nat) : Option (PyValue × Nat) :=
  (readBytes data offset 8).map (fun bs => (PyValue.int (asSigned 8 (leVal bs)), offset + 8))

/-- `decode_uint64`: eight bytes, unsigned, little-endian. -/
def decode_uint64 (data : Bytes) (offset : Nat) : Option (PyValue × Nat) :=
  (readBytes data offset 8).map (fun bs => (PyValue.int (leVal bs), offset + 8))

/-- `decode_float`: four bytes, the single-precision bit pattern. -/
def decode_float (data : Bytes) (offset : Nat) : Option (PyValue × Nat) :=
  (readBytes data offset 4).map (fun bs => (PyValue.float (leVal bs), offset + 4))

/-- `decode_double`: eight bytes, the double-precision bit pattern. -/
def decode_double (data : Bytes) (offset : Nat) : Option (PyValue × Nat) :=
  (readBytes data offset 8).map (fun bs => (PyValue.float (leVal bs), offset + 8))

/-- `decode_string`: signed 32-bit length; negative means null (no payload
read); otherwise `data[offset:offset+length]`, which CLAMPS like a Python
slice — a too-large length yields the remaining bytes, never an error. -/
def decode_string (data : Bytes) (offset : Nat) : Option (PyValue × Nat) := do
  let lb ← readBytes data offset 4
  let len := asSigned 4 (leVal lb)
  if len < 0 then
    pure (PyValue.none, offset + 4)
  else
    pure (PyValue.str ((data.drop (offset + 4)).take len.toNat), offset + 4 + len.toNat)

/-- `decode_datetime`: eight bytes, unsigned FILETIME tick count. -/
def decode_datetime (data : Bytes) (offset : Nat) : Option (PyValue × Nat) :=
  (readBytes data offset 8).map (fun bs => (PyValue.int (leVal bs), offset + 8))

/-- `decode_bytestring`: like `decode_string` with raw bytes (same slice
clamping). -/
def decode_bytestring (data : Bytes) (offset : Nat) : Option (PyValue × Nat) := do
  let lb ← readBytes data offset 4
  let len := asSigned 4 (leVal lb)
  if len < 0 then
    pure (PyValue.none, offset + 4)
  else
    pure (PyValue.bytes ((data.drop (offset + 4)).take len.toNat), offset + 4 + len.toNat)

/-- `decode_value`: dispatch on the type id; an unknown type raises
(`ValueError`), modelled as `none`. -/
def decode_value (data : Bytes) (type_id : Nat) (offset : Nat) : Option (PyValue × Nat) :=
  if type_id = OPCUATypes.BOOLEAN then decode_boolean data offset
  else if type_id = OPCUATypes.SBYTE then decode_sbyte data offset
  else if type_id = OPCUATypes.BYTE then decode_byte data offset
  else if type_id = OPCUATypes.INT16 then decode_int16 data offset
  else if type_id = OPCUATypes.UINT16 then decode_uint16 data offset
  else if type_id = OPCUATypes.INT32 then decode_int32 data offset
  else if type_id = OPCUATypes.UINT32 then decode_uint32 data offset
  else if type_id = OPCUATypes.INT64 then decode_int64 data offset
  else if type_id = OPCUATypes.UINT64 then decode_uint64 data offset
  else if type_id = OPCUATypes.FLOAT then decode_float data offset
  else if type_id = OPCUATypes.DOUBLE then decode_double data offset
  else if type_id = OPCUATypes.STRING then decode_string data offset
  else if type_id = OPCUATypes.DATETIME then decode_datetime data offset
  else if type_id = OPCUATypes.BYTESTRING then decode_bytestring data offset
  else Option.none

end UADPDecoder

/-- `UADPDataValue`: a scalar with status code and optional source
timestamp (`None` or an int FILETIME). -/
structure UADPDataValue : Type where
  value : PyValue
  type_id : Nat
  status_code : Nat
  source_timestamp : PyValue
  deriving DecidableEq, Repr

/-- `UADPDataValue.encode`: one mask byte (bit0 value present, bit1 status,
bit2 timestamp) followed by the flagged fields in mask-bit order. -/
def UADPDataValue.encode (now : Nat) (dv : UADPDataValue)
    (include_status include_timestamp : Bool) : Option Bytes := do
  let mask : Nat :=
    0x01 |||
    (if include_status ∧ dv.status_code ≠ StatusCode.GOOD then 0x02 else 0) |||
    (if include_timestamp then 0x04 else 0)
  let vb ← UADPEncoder.encode_value now dv.value (some dv.type_id)
  let sb := if mask &&& 0x02 ≠ 0 then UADPEncoder.encode_status_code dv.status_code else []
  let tb ← if mask &&& 0x04 ≠ 0 then UADPEncoder.encode_datetime now dv.source_timestamp
           else pure []
  pure (mask :: (vb ++ sb ++ tb))

/-- `UADPDataValue.encode_raw`: only the scalar, no mask or metadata. -/
def UADPDataValue.encode_raw (now : Nat) (dv : UADPDataValue) : Option Bytes :=
  UADPEncoder.encode_value now dv.value (some dv.type_id)

/-- `UADPDataSetMessage`: writer id, 16-bit wrapping sequence number and an
ordered field list of (name as UTF-8 bytes, value, type id); the default
field encoding from `__init__` is RawData (1). -/
structure UADPDataSetMessage : Type where
  dataset_writer_id : Nat
  sequence_number : Nat
  fields : List (Bytes × PyValue × Nat)
  field_encoding : Nat := 1
  deriving DecidableEq, Repr

/-- `UADPDataSetMessage.encode` (RawData path): Flags1 = Valid |
(field_encoding &lt;&lt; 1) | SequenceNumberEnabled, Flags2 = 0, 16-bit
sequence number, then the fields back to back with no per-field tags. -/
def UADPDataSetMessage.encode (now : Nat) (m : UADPDataSetMessage) : Option Bytes := do
  let f1 ← appendByte (0x01 ||| (m.field_encoding <<< 1) ||| 0x08)
  let fieldBytes ← m.fields.mapM (fun f => UADPEncoder.encode_value now f.2.1 (some f.2.2))
  pure (f1 ++ 0x00 :: (leBytes 2 (m.sequence_number &&& 0xFFFF) ++ fieldBytes.flatten))

/-- `UADPDataSetMessage.encode_with_types` (Variant path): Flags1 with
Variant field encoding, Flags2 = 0, 16-bit sequence number, 16-bit field
count, then (1-byte type id, encoded value) per field. -/
def UADPDataSetMessage.encode_with_types (now : Nat) (m : UADPDataSetMessage) : Option Bytes := do
  let fieldBytes ← m.fields.mapM (fun f => do
    let tb ← appendByte f.2.2
    let vb ← UADPEncoder.encode_value now f.2.1 (some f.2.2)
    pure (tb ++ vb))
  pure (0x09 :: 0x00 :: (leBytes 2 (m.sequence_number &&& 0xFFFF) ++
    leBytes 2 m.fields.length ++ fieldBytes.flatten))

/-- `UADPNetworkMessage` state as built by `__init__` plus the fields the
encoder reads; group and payload headers default to enabled. -/
structure UADPNetworkMessage : Type where
  publisher_id : PyValue
  writer_group_id : Nat
  dataset_messages : List UADPDataSetMessage
  sequence_number : Nat
  include_group_header : Bool := true
  include_payload_header : Bool := true
  deriving DecidableEq, Repr

/-- UADP protocol version constant. -/
def UADPNetworkMessage.VERSION : Nat := 1

/-- PublisherId bytes of the full framing: selector tag then value, width
chosen by `isinstance` checks and numeric range; a Python bool passes the
int check (as 0/1); shapes that are neither str nor int emit nothing. -/
def UADPNetworkMessage.pubIdBytes : PyValue → Option Bytes
  | PyValue.str s => (UADPEncoder.encode_string (PyValue.str s)).map (fun eb => 0x04 :: eb)
  | PyValue.int i =>
      if i ≤ 255 then (appendByteI i).map (fun b => 0x00 :: b)
      else if i ≤ 65535 then some (0x01 :: leBytesI 2 i)
      else some (0x02 :: leBytesI 4 i)
  | PyValue.bool b => some [0x00, if b then 1 else 0]
  | _ => some []

/-- `UADPNetworkMessage.encode` (full framing): flags byte, publisher id,
optional group header (flags 0x03, writer group id, group version 0,
16-bit sequence number), optional payload header (count byte and writer
ids), then the DataSetMessages — 16-bit sizes first and only when more
than one message is present. -/
def UADPNetworkMessage.encode (now : Nat) (m : UADPNetworkMessage) : Option Bytes := do
  let flags := (UADPNetworkMessage.VERSION &&& 0x0F) ||| 0x10 |||
    (if m.include_group_header then 0x20 else 0) |||
    (if m.include_payload_header then 0x40 else 0)
  let pub ← UADPNetworkMessage.pubIdBytes m.publisher_id
  let gh := if m.include_group_header then
      0x03 :: (leBytes 2 m.writer_group_id ++ leBytes 4 0 ++
        leBytes 2 (m.sequence_number &&& 0xFFFF))
    else []
  let ph ← if m.include_payload_header then do
      let cb ← appendByte m.dataset_messages.length
      pure (cb ++ (m.dataset_messages.map (fun d => leBytes 2 d.dataset_writer_id)).flatten)
    else pure []
  let payload ← if 1 < m.dataset_messages.length then do
      let encs ← m.dataset_messages.mapM (UADPDataSetMessage.encode now)
      pure ((encs.map (fun e => leBytes 2 e.length)).flatten ++ encs.flatten)
    else do
      let encs ← m.dataset_messages.mapM (UADPDataSetMessage.encode now)
      pure encs.flatten
  pure (flags :: (pub ++ gh ++ ph ++ payload))

/-- PublisherId bytes of the minimal framing: the Byte path for every
int `<= 255` (the source has no lower bound, so a negative id reaches the
failing byte append), otherwise the String form of `str(id)` truncated to
at most 16 UTF-8 bytes; a Python bool passes the `isinstance(int)` check. -/
def UADPNetworkMessage.minimalPubBytes : PyValue → Option Bytes
  | PyValue.int i =>
      if i ≤ 255 then (appendByteI i).map (fun b => 0x00 :: b)
      else (pyStr (PyValue.int i)).map (fun s =>
        let pb := s.take 16
        0x04 :: (leBytesI 4 pb.length ++ pb))
  | PyValue.bool b => some [0x00, if b then 1 else 0]
  | v => (pyStr v).map (fun s =>
        let pb := s.take 16
        0x04 :: (leBytesI 4 pb.length ++ pb))

/-- `UADPNetworkMessage.encode_minimal`: one flags byte (version |
PublisherIdEnabled), the minimal publisher-id bytes, then a count byte
and the DataSetMessages with no sizes, no group header and no payload
header. -/
def UADPNetworkMessage.encode_minimal (now : Nat) (m : UADPNetworkMessage) : Option Bytes := do
  let flags := UADPNetworkMessage.VERSION ||| 0x10
  let pub ← UADPNetworkMessage.minimalPubBytes m.publisher_id
  let cb ← appendByte m.dataset_messages.length
  let encs ← m.dataset_messages.mapM (UADPDataSetMessage.encode now)
  pure (flags :: (pub ++ cb ++ encs.flatten))

/-- Header fields exposed by `UADPNetworkMessage.decode`: the parsed
publisher id, group header fields, writer-id list with count, and the
remaining bytes as an opaque payload. -/
structure UADPParsedMessage : Type where
  publisher_id : PyValue
  writer_group_id : Nat
  sequence_number : Nat
  writer_ids : List Nat
  ds_count : Nat
  raw_payload : Bytes
  deriving DecidableEq, Repr

/-- Payload header loop of `decode`: reads `n` 16-bit writer ids. -/
def readWriterIds (data : Bytes) : Nat → Nat → Option (List Nat × Nat)
  | 0, offset => some ([], offset)
  | n + 1, offset => do
      let bs ← readBytes data offset 2
      let (rest, off) ← readWriterIds data n (offset + 2)
      pure (leVal bs :: rest, off)

/-- `UADPNetworkMessage.decode`: rejects buffers shorter than 2 bytes and
versions other than 1 (`return None`); then conditionally parses publisher
id, group header (reading only the fields whose group-flag bit is set —
GroupVersion is skipped by offset arithmetic with no read), payload
header, and stores the rest as the raw payload.  Out-of-range reads raise
in Python; both exits are modelled as `none`. -/
def UADPNetworkMessage.decode (data : Bytes) : Option UADPParsedMessage :=
  if data.length < 2 then Option.none else
  let flags := data.headI
  if flags &&& 0x0F ≠ 1 then Option.none else do
  let (pub, offset) ←
    if flags &&& 0x10 ≠ 0 then do
      let ptype ← data.get? 1
      if ptype = 0x00 then do
        let b ← data.get? 2
        pure (PyValue.int b, 3)
      else if ptype = 0x01 then do
        let bs ← readBytes data 2 2
        pure (PyValue.int (leVal bs), 4)
      else if ptype = 0x02 then do
        let bs ← readBytes data 2 4
        pure (PyValue.int (leVal bs), 6)
      else if ptype = 0x04 then
        UADPDecoder.decode_string data 2
      else
        pure (PyValue.str [], 2)
    else pure (PyValue.str [], 1)
  let (wgid, seq, offset) ←
    if flags &&& 0x20 ≠ 0 then do
      let gflags ← data.get? offset
      let offset := offset + 1
      let (wgid, offset) ←
        if gflags &&& 0x01 ≠ 0 then do
          let bs ← readBytes data offset 2
          pure (leVal bs, offset + 2)
        else pure (0, offset)
      let offset := if gflags &&& 0x02 ≠ 0 then offset + 4 else offset
      let (seq, offset) ←
        if gflags &&& 0x04 ≠ 0 then do
          let bs ← readBytes data offset 2
          pure (leVal bs, offset + 2)
        else pure (0, offset)
      pure (wgid, seq, offset)
    else pure (0, 0, offset)
  let (ds_count, writer_ids, offset) ←
    if flags &&& 0x40 ≠ 0 then do
      let c ← data.get? offset
      let (ids, off) ← readWriterIds data c (offset + 1)
      pure (c, ids, off)
    else pure (1, ([] : List Nat), offset)
  pure ⟨pub, wgid, seq, writer_ids, ds_count, data.drop offset⟩

/-- DataSetClassId constant of the interop path (`DATASET_CLASS_ID`). -/
def DATASET_CLASS_ID : Bytes :=
  [0x94, 0x97, 0xe7, 0xea, 0xf7, 0x1a, 0x96, 0x4f,
   0x84, 0x01, 0x40, 0x96, 0xcd, 0x1d, 0x89, 0x08]

/-- `encode_uadp_interop` from `benchmark_leve.py`: fixed flags 0xD1/0x0C,
String publisher id, the 16-byte DataSetClassId, payload header with one
message, then a Variant-encoded DataSetMessage with a 16-bit field count
and (type id, value) per field. -/
def encode_uadp_interop (now : Nat) (publisher_id : Bytes) (dataset_writer_id : Nat)
    (fields : List (Bytes × PyValue × Nat)) : Option Bytes := do
  let fieldBytes ← fields.mapM (fun f => do
    let tb ← appendByte f.2.2
    let vb ← UADPEncoder.encode_value now f.2.1 (some f.2.2)
    pure (tb ++ vb))
  pure ([0xD1, 0x0C] ++ leBytesI 4 publisher_id.length ++ publisher_id ++
    DATASET_CLASS_ID ++ [0x01] ++ leBytes 2 dataset_writer_id ++
    [0x01] ++ leBytes 2 fields.length ++ fieldBytes.flatten)

/-! Claim-side definitions: the supported scalar types as an enumeration,
representability of a value at a type, the offsets the round-trip law
predicts, and the two candidate payload-body layouts of the network
frame. -/

/-- The scalar wire types supported by BOTH `encode_value` and
`decode_value` (every type id present in the two dispatch tables; GUID is
in neither). -/
inductive WireType : Type
  | boolean | sbyte | byte | int16 | uint16 | int32 | uint32
  | int64 | uint64 | float32 | float64 | string | datetime | bytestring
  deriving DecidableEq, Repr

/-- OPC UA type id of each supported wire type. -/
def WireType.typeId : WireType → Nat
  | .boolean => OPCUATypes.BOOLEAN
  | .sbyte => OPCUATypes.SBYTE
  | .byte => OPCUATypes.BYTE
  | .int16 => OPCUATypes.INT16
  | .uint16 => OPCUATypes.UINT16
  | .int32 => OPCUATypes.INT32
  | .uint32 => OPCUATypes.UINT32
  | .int64 => OPCUATypes.INT64
  | .uint64 => OPCUATypes.UINT64
  | .float32 => OPCUATypes.FLOAT
  | .float64 => OPCUATypes.DOUBLE
  | .string => OPCUATypes.STRING
  | .datetime => OPCUATypes.DATETIME
  | .bytestring => OPCUATypes.BYTESTRING

/-- Fixed encoded width of each fixed-width type; `none` for the
length-prefixed String and ByteString. -/
def WireType.fixedWidth : WireType → Option Nat
  | .boolean => some 1
  | .sbyte => some 1
  | .byte => some 1
  | .int16 => some 2
  | .uint16 => some 2
  | .int32 => some 4
  | .uint32 => some 4
  | .int64 => some 8
  | .uint64 => some 8
  | .float32 => some 4
  | .float64 => some 8
  | .datetime => some 8
  | .string => Option.none
  | .bytestring => Option.none

/-- Representability of a Python value at a wire type: booleans for
Boolean, in-range ints for the integer types and DateTime, floats whose
bit pattern fits the serialized width, strings/bytestrings (or null) whose
length fits the signed 32-bit length field. -/
def WireType.representable : WireType → PyValue → Bool
  | .boolean, PyValue.bool _ => true
  | .sbyte, PyValue.int i => decide (-128 ≤ i ∧ i < 128)
  | .byte, PyValue.int i => decide (0 ≤ i ∧ i < 256)
  | .int16, PyValue.int i => decide (-32768 ≤ i ∧ i < 32768)
  | .uint16, PyValue.int i => decide (0 ≤ i ∧ i < 65536)
  | .int32, PyValue.int i => decide (-2147483648 ≤ i ∧ i < 2147483648)
  | .uint32, PyValue.int i => decide (0 ≤ i ∧ i < 4294967296)
  | .int64, PyValue.int i => decide (-(2 ^ 63) ≤ i ∧ i < 2 ^ 63)
  | .uint64, PyValue.int i => decide (0 ≤ i ∧ i < 2 ^ 64)
  | .float32, PyValue.float b => decide (b < 2 ^ 32)
  | .float64, PyValue.float b => decide (b < 2 ^ 64)
  | .string, PyValue.str s => decide (s.length < 2 ^ 31)
  | .string, PyValue.none => true
  | .datetime, PyValue.int i => decide (0 ≤ i ∧ i < 2 ^ 64)
  | .bytestring, PyValue.bytes bs => decide (bs.length < 2 ^ 31)
  | .bytestring, PyValue.none => true
  | _, _ => false

/-- The offset the round-trip law predicts after decoding from offset 0:
the fixed width for fixed-width types, 4 plus the payload length for
String/ByteString, and 4 for a null String/ByteString. -/
def WireType.decodedOffset : WireType → PyValue → Nat
  | .string, PyValue.str s => 4 + s.length
  | .string, _ => 4
  | .bytestring, PyValue.bytes bs => 4 + bs.length
  | .bytestring, _ => 4
  | t, _ => (t.fixedWidth).getD 0

/-- Payload-body layout the source produces: with two or more encoded
DataSetMessages, ALL the 16-bit sizes first, then all the messages; with
at most one, just the message bytes. -/
def payload_body (encs : List Bytes) : Bytes :=
  if 1 < encs.length then
    (encs.map (fun e => leBytes 2 e.length)).flatten ++ encs.flatten
  else encs.flatten

/-- Payload-body layout the claim's reconstruction clause describes: each
message directly preceded by its own 16-bit size. -/
def payload_body_interleaved (encs : List Bytes) : Bytes :=
  if 1 < encs.length then
    (encs.map (fun e => leBytes 2 e.length ++ e)).flatten
  else encs.flatten

/-- Header portion of the full framing (everything `encode` emits before
the DataSetMessages), as a stand-alone decomposition used to state the
payload-layout law. -/
def UADPNetworkMessage.headerBytes (m : UADPNetworkMessage) : Option Bytes := do
  let flags := (UADPNetworkMessage.VERSION &&& 0x0F) ||| 0x10 |||
    (if m.include_group_header then 0x20 else 0) |||
    (if m.include_payload_header then 0x40 else 0)
  let pub ← UADPNetworkMessage.pubIdBytes m.publisher_id
  let gh := if m.include_group_header then
      0x03 :: (leBytes 2 m.writer_group_id ++ leBytes 4 0 ++
        leBytes 2 (m.sequence_number &&& 0xFFFF))
    else []
  let ph ← if m.include_payload_header then do
      let cb ← appendByte m.dataset_messages.length
      pure (cb ++ (m.dataset_messages.map (fun d => leBytes 2 d.dataset_writer_id)).flatten)
    else pure []
  pure (flags :: (pub ++ gh ++ ph))

/-! Helper lemmas about the byte-level primitives. -/

theorem leBytes_eval1 (v : Nat) : leBytes 1 v = [v % 256] := rfl

theorem leBytes_eval2 (v : Nat) : leBytes 2 v = [v % 256, v / 256 % 256] := rfl

theorem leBytes_eval4 (v : Nat) :
    leBytes 4 v = [v % 256, v / 256 % 256, v / 256 / 256 % 256, v / 256 / 256 / 256 % 256] := rfl

theorem leBytes_eval8 (v : Nat) :
    leBytes 8 v = [v % 256, v / 256 % 256, v / 256 / 256 % 256, v / 256 / 256 / 256 % 256,
      v / 256 / 256 / 256 / 256 % 256, v / 256 / 256 / 256 / 256 / 256 % 256,
      v / 256 / 256 / 256 / 256 / 256 / 256 % 256,
      v / 256 / 256 / 256 / 256 / 256 / 256 / 256 % 256] := rfl

theorem leVal_cons (b : Nat) (rest : Bytes) : leVal (b :: rest) = b + 256 * leVal rest := rfl

theorem leVal_nil : leVal [] = 0 := rfl

theorem leBytes_length : ∀ (w v : Nat), (leBytes w v).length = w
  | 0, _ => rfl
  | w + 1, v => by simp [leBytes, leBytes_length w]

theorem leBytesI_length (w : Nat) (i : Int) : (leBytesI w i).length = w := by
  simp [leBytesI, leBytes_length]

theorem readBytes_exact (bs : Bytes) (w : Nat) (h : bs.length = w) :
    readBytes bs 0 w = some bs := by
  subst h
  simp [readBytes, List.take_length]

theorem readBytes_left (l1 l2 : Bytes) (w : Nat) (h : l1.length = w) :
    readBytes (l1 ++ l2) 0 w = some l1 := by
  subst h
  simp [readBytes, List.take_left]

theorem readBytes_mid (front mid tail : Bytes) :
    readBytes (front ++ mid ++ tail) front.length mid.length = some mid := by
  rw [readBytes, List.append_assoc, if_pos]
  · rw [List.drop_left, List.take_left]
  · simp

theorem asSigned_leBytesI_1 (i : Int) (h1 : -128 ≤ i) (h2 : i < 128) :
    asSigned 1 (leVal (leBytesI 1 i)) = i := by
  simp only [leBytesI, leBytes_eval1, leVal_cons, leVal_nil, asSigned]
  norm_num
  split <;> omega

theorem asSigned_leBytesI_2 (i : Int) (h1 : -32768 ≤ i) (h2 : i < 32768) :
    asSigned 2 (leVal (leBytesI 2 i)) = i := by
  simp only [leBytesI, leBytes_eval2, leVal_cons, leVal_nil, asSigned]
  norm_num
  split <;> omega

theorem asSigned_leBytesI_4 (i : Int) (h1 : -2147483648 ≤ i) (h2 : i < 2147483648) :
    asSigned 4 (leVal (leBytesI 4 i)) = i := by
  simp only [leBytesI, leBytes_eval4, leVal_cons, leVal_nil, asSigned]
  norm_num
  split <;> omega

theorem asSigned_leBytesI_8 (i : Int) (h1 : -(2 ^ 63) ≤ i) (h2 : i < 2 ^ 63) :
    asSigned 8 (leVal (leBytesI 8 i)) = i := by
  simp only [leBytesI, leBytes_eval8, leVal_cons, leVal_nil, asSigned]
  norm_num
  split <;> omega

theorem leVal_leBytesI_u1 (i : Int) (h1 : 0 ≤ i) (h2 : i < 256) :
    ((leVal (leBytesI 1 i) : Nat) : Int) = i := by
  simp only [leBytesI, leBytes_eval1, leVal_cons, leVal_nil]
  norm_num
  omega

theorem leVal_leBytesI_u2 (i : Int) (h1 : 0 ≤ i) (h2 : i < 65536) :
    ((leVal (leBytesI 2 i) : Nat) : Int) = i := by
  simp only [leBytesI, leBytes_eval2, leVal_cons, leVal_nil]
  norm_num
  omega

theorem leVal_leBytesI_u4 (i : Int) (h1 : 0 ≤ i) (h2 : i < 4294967296) :
    ((leVal (leBytesI 4 i) : Nat) : Int) = i := by
  simp only [leBytesI, leBytes_eval4, leVal_cons, leVal_nil]
  norm_num
  omega

theorem leVal_leBytesI_u8 (i : Int) (h1 : 0 ≤ i) (h2 : i < 2 ^ 64) :
    ((leVal (leBytesI 8 i) : Nat) : Int) = i := by
  simp only [leBytesI, leBytes_eval8, leVal_cons, leVal_nil]
  norm_num
  omega

theorem leVal_leBytes_n4 (b : Nat) (h : b < 2 ^ 32) : leVal (leBytes 4 b) = b := by
  simp only [leBytes_eval4, leVal_cons, leVal_nil]
  omega

theorem leVal_leBytes_n8 (b : Nat) (h : b < 2 ^ 64) : leVal (leBytes 8 b) = b := by
  simp only [leBytes_eval8, leVal_cons, leVal_nil]
  omega

theorem leVal_leBytes_n2 (b : Nat) (h : b < 2 ^ 16) : leVal (leBytes 2 b) = b := by
  simp only [leBytes_eval2, leVal_cons, leVal_nil]
  omega

theorem mapM_some_length {α β : Type} (f : α → Option β) :
    ∀ (l : List α) (res : List β), l.mapM f = some res → res.length = l.length := by
  intro l
  induction l with
  | nil =>
    intro res h
    simp only [List.mapM_nil, pure, Option.some.injEq] at h
    simp [← h]
  | cons a t ih =>
    intro res h
    rw [List.mapM_cons] at h
    cases hfa : f a with
    | none =>
      rw [hfa] at h
      simp at h
    | some b =>
      rw [hfa] at h
      cases hmt : t.mapM f with
      | none =>
        rw [hmt] at h
        simp at h
      | some bs =>
        rw [hmt] at h
        have h2 : b :: bs = res := by simpa using h
        rw [← h2]
        simp [ih bs hmt]

/-- C1: for publisherId "ESP32" (UTF-8 bytes 45 53 50 33 32), writerId 1000
and the single field ("Val_F32_A", 25.5, Float) — 25.5 having the
single-precision bit pattern 0x41CC0000 — `encode_uadp_interop` returns
exactly flags 0xD1 0x0C, the 4-byte little-endian length 5, the id bytes,
the 16-byte DataSetClassId constant, 0x01, little-endian 1000, 0x01,
little-endian field count 1, type tag 0x0A and the little-endian bytes
00 00 CC 41 of 25.5; the result does not depend on the clock. -/
theorem interop_fixture_bytes (now : Nat) :
    encode_uadp_interop now [0x45, 0x53, 0x50, 0x33, 0x32] 1000
      [([0x56, 0x61, 0x6C, 0x5F, 0x46, 0x33, 0x32, 0x5F, 0x41],
        PyValue.float 0x41CC0000, OPCUATypes.FLOAT)] =
    some [0xD1, 0x0C,
      0x05, 0x00, 0x00, 0x00,
      0x45, 0x53, 0x50, 0x33, 0x32,
      0x94, 0x97, 0xE7, 0xEA, 0xF7, 0x1A, 0x96, 0x4F,
      0x84, 0x01, 0x40, 0x96, 0xCD, 0x1D, 0x89, 0x08,
      0x01,
      0xE8, 0x03,
      0x01,
      0x01, 0x00,
      0x0A,
      0x00, 0x00, 0xCC, 0x41] := rfl

/-- C5: any buffer whose first byte has low four bits different from 1 is
rejected by `UADPNetworkMessage.decode` with no message returned. -/
theorem decode_rejects_unsupported_version (b : Nat) (rest : Bytes)
    (h : b &&& 0x0F ≠ 1) : UADPNetworkMessage.decode (b :: rest) = Option.none := by
  unfold UADPNetworkMessage.decode
  by_cases hl : (b :: rest).length < 2
  · rw [if_pos hl]
  · rw [if_neg hl]
    exact if_pos h

/-- Concrete instance of the version-rejection theorem: first byte 0x22
has version nibble 2. -/
theorem decode_rejects_unsupported_version_witness :
    (0x22 &&& 0x0F ≠ 1) ∧ UADPNetworkMessage.decode [0x22, 0x00, 0x00] = Option.none :=
  ⟨by decide, decode_rejects_unsupported_version 0x22 [0x00, 0x00] (by decide)⟩

/-- C4: encoding a NetworkMessage with the group header enabled emits
group-flags 0x03 — bit 2 (NetworkMessageNumberPresent) CLEAR — while still
appending the 16-bit sequence number; the codec's own decoder therefore
skips the sequence number and misreads the payload-header count (0 instead
of 1 for this input, the two zero sequence-number bytes being consumed as
count and writer-id bytes). -/
theorem group_header_bit2_clear_bug :
    UADPNetworkMessage.encode 0
      ⟨PyValue.int 5, 1, [⟨7, 0, [], 1⟩], 0, true, true⟩ =
      some [0x71, 0x00, 0x05,
        0x03, 0x01, 0x00, 0x00, 0x00, 0x00, 0x00, 0x00, 0x00,
        0x01, 0x07, 0x00,
        0x0B, 0x00, 0x00, 0x00] ∧
    0x03 &&& 0x04 = 0 ∧
    UADPNetworkMessage.decode [0x71, 0x00, 0x05,
        0x03, 0x01, 0x00, 0x00, 0x00, 0x00, 0x00, 0x00, 0x00,
        0x01, 0x07, 0x00,
        0x0B, 0x00, 0x00, 0x00] =
      some ⟨PyValue.int 5, 1, 0, [], 0, [0x00, 0x01, 0x07, 0x00, 0x0B, 0x00, 0x00, 0x00]⟩ := by
  decide

/-- Counterexample to C8 as stated: 2^63 is mapped to Int64 although no
signed 64-bit type contains it (it exceeds the Int64 maximum). -/
theorem from_python_int64_overflow :
    OPCUATypes.from_python (PyValue.int 9223372036854775808) = OPCUATypes.INT64 ∧
    ¬((9223372036854775808 : Int) ≤ 9223372036854775807) := by
  decide

/-- C8 (amended): booleans infer Boolean; an integer infers the narrowest
of SByte, Int16, Int32 that contains it and Int64 for EVERY other integer,
including those outside the Int64 range; floats infer Float, strings
String, bytes ByteString, and anything else String; 42 infers SByte and
200 infers Int16. -/
theorem from_python_characterization :
    (∀ b, OPCUATypes.from_python (PyValue.bool b) = OPCUATypes.BOOLEAN) ∧
    (∀ i : Int,
      (OPCUATypes.from_python (PyValue.int i) = OPCUATypes.SBYTE ↔ -128 ≤ i ∧ i ≤ 127) ∧
      (OPCUATypes.from_python (PyValue.int i) = OPCUATypes.INT16 ↔
        (-32768 ≤ i ∧ i ≤ 32767) ∧ ¬(-128 ≤ i ∧ i ≤ 127)) ∧
      (OPCUATypes.from_python (PyValue.int i) = OPCUATypes.INT32 ↔
        (-2147483648 ≤ i ∧ i ≤ 2147483647) ∧ ¬(-32768 ≤ i ∧ i ≤ 32767)) ∧
      (OPCUATypes.from_python (PyValue.int i) = OPCUATypes.INT64 ↔
        ¬(-2147483648 ≤ i ∧ i ≤ 2147483647))) ∧
    (∀ bits, OPCUATypes.from_python (PyValue.float bits) = OPCUATypes.FLOAT) ∧
    (∀ s, OPCUATypes.from_python (PyValue.str s) = OPCUATypes.STRING) ∧
    (∀ bs, OPCUATypes.from_python (PyValue.bytes bs) = OPCUATypes.BYTESTRING) ∧
    OPCUATypes.from_python PyValue.none = OPCUATypes.STRING ∧
    OPCUATypes.from_python (PyValue.int 42) = OPCUATypes.SBYTE ∧
    OPCUATypes.from_python (PyValue.int 200) = OPCUATypes.INT16 := by
  refine ⟨fun b => rfl, fun i => ⟨?_, ?_, ?_, ?_⟩, fun _ => rfl, fun _ => rfl,
    fun _ => rfl, rfl, by decide, by decide⟩ <;>
  · simp only [OPCUATypes.from_python, OPCUATypes.SBYTE, OPCUATypes.INT16,
      OPCUATypes.INT32, OPCUATypes.INT64]
    split_ifs <;> simp_all <;> omega

/-- C9: a null String or ByteString encodes as exactly the four bytes of
little-endian −1 with no payload, and decoding any String or ByteString
whose 4-byte length prefix is negative (high bit set) yields the null
marker and exactly offset + 4, for every offset and regardless of what
bytes — if any — follow the prefix. -/
theorem null_string_bytes :
    (UADPEncoder.encode_string PyValue.none = some [0xFF, 0xFF, 0xFF, 0xFF]) ∧
    (UADPEncoder.encode_bytestring PyValue.none = some [0xFF, 0xFF, 0xFF, 0xFF]) ∧
    (∀ (front tail : Bytes) (u : Nat), 2 ^ 31 ≤ u → u < 2 ^ 32 →
      UADPDecoder.decode_string (front ++ leBytes 4 u ++ tail) front.length =
        some (PyValue.none, front.length + 4)) ∧
    (∀ (front tail : Bytes) (u : Nat), 2 ^ 31 ≤ u → u < 2 ^ 32 →
      UADPDecoder.decode_bytestring (front ++ leBytes 4 u ++ tail) front.length =
        some (PyValue.none, front.length + 4)) := by
  refine ⟨by decide, by decide, ?_, ?_⟩ <;>
  · intro front tail u h1 h2
    have hm := readBytes_mid front (leBytes 4 u) tail
    rw [leBytes_length] at hm
    rw [List.append_assoc] at hm
    have hv : leVal (leBytes 4 u) = u := by
      simp only [leBytes_eval4, leVal_cons, leVal_nil]
      omega
    have hneg : asSigned 4 u < 0 := by
      simp only [asSigned]
      norm_num
      split <;> omega
    simp [UADPDecoder.decode_string, UADPDecoder.decode_bytestring, hm, hv, hneg]

/-- Concrete instance of the null-encoding theorem: length prefix
FF FF FF FF (−1) followed by stray bytes decodes to null at offset 4. -/
theorem null_string_bytes_witness :
    (2 ^ 31 ≤ 4294967295) ∧ (4294967295 < 2 ^ 32) ∧
    UADPDecoder.decode_string (([] : Bytes) ++ leBytes 4 4294967295 ++ [1, 2, 3])
        ([] : Bytes).length = some (PyValue.none, ([] : Bytes).length + 4) :=
  ⟨by decide, by decide,
    null_string_bytes.2.2.1 [] [1, 2, 3] 4294967295 (by decide) (by decide)⟩

/-- C2: for every scalar type supported by both dispatch tables and every
value representable at that type, decoding the encoding from offset 0
returns the original value together with the type's fixed width, or
4 + payload length (4 for null) for String/ByteString, as recorded by
`WireType.decodedOffset`; the clock parameter is irrelevant. -/
theorem scalar_roundtrip (now : Nat) (t : WireType) (v : PyValue)
    (h : t.representable v = true) :
    ∃ bs, UADPEncoder.encode_value now v (some t.typeId) = some bs ∧
      UADPDecoder.decode_value bs t.typeId 0 = some (v, t.decodedOffset v) := by
  cases t with
  | boolean =>
    cases v
    case bool b => exact ⟨_, rfl, by cases b <;> decide⟩
    all_goals exact Bool.noConfusion h
  | sbyte =>
    cases v
    case int i =>
      obtain ⟨h1, h2⟩ := of_decide_eq_true h
      refine ⟨_, rfl, ?_⟩
      show UADPDecoder.decode_sbyte (leBytesI 1 i) 0 = some (PyValue.int i, 1)
      simp only [UADPDecoder.decode_sbyte]
      rw [readBytes_exact _ _ (leBytesI_length 1 i)]
      simp [asSigned_leBytesI_1 i h1 h2]
    all_goals exact Bool.noConfusion h
  | byte =>
    cases v
    case int i =>
      obtain ⟨h1, h2⟩ := of_decide_eq_true h
      refine ⟨_, rfl, ?_⟩
      show UADPDecoder.decode_byte (leBytesI 1 i) 0 = some (PyValue.int i, 1)
      simp only [UADPDecoder.decode_byte]
      rw [readBytes_exact _ _ (leBytesI_length 1 i)]
      simp [leVal_leBytesI_u1 i h1 h2]
    all_goals exact Bool.noConfusion h
  | int16 =>
    cases v
    case int i =>
      obtain ⟨h1, h2⟩ := of_decide_eq_true h
      refine ⟨_, rfl, ?_⟩
      show UADPDecoder.decode_int16 (leBytesI 2 i) 0 = some (PyValue.int i, 2)
      simp only [UADPDecoder.decode_int16]
      rw [readBytes_exact _ _ (leBytesI_length 2 i)]
      simp [asSigned_leBytesI_2 i h1 h2]
    all_goals exact Bool.noConfusion h
  | uint16 =>
    cases v
    case int i =>
      obtain ⟨h1, h2⟩ := of_decide_eq_true h
      refine ⟨_, rfl, ?_⟩
      show UADPDecoder.decode_uint16 (leBytesI 2 i) 0 = some (PyValue.int i, 2)
      simp only [UADPDecoder.decode_uint16]
      rw [readBytes_exact _ _ (leBytesI_length 2 i)]
      simp [leVal_leBytesI_u2 i h1 h2]
    all_goals exact Bool.noConfusion h
  | int32 =>
    cases v
    case int i =>
      obtain ⟨h1, h2⟩ := of_decide_eq_true h
      refine ⟨_, rfl, ?_⟩
      show UADPDecoder.decode_int32 (leBytesI 4 i) 0 = some (PyValue.int i, 4)
      simp only [UADPDecoder.decode_int32]
      rw [readBytes_exact _ _ (leBytesI_length 4 i)]
      simp [asSigned_leBytesI_4 i h1 h2]
    all_goals exact Bool.noConfusion h
  | uint32 =>
    cases v
    case int i =>
      obtain ⟨h1, h2⟩ := of_decide_eq_true h
      refine ⟨_, rfl, ?_⟩
      show UADPDecoder.decode_uint32 (leBytesI 4 i) 0 = some (PyValue.int i, 4)
      simp only [UADPDecoder.decode_uint32]
      rw [readBytes_exact _ _ (leBytesI_length 4 i)]
      simp [leVal_leBytesI_u4 i h1 h2]
    all_goals exact Bool.noConfusion h
  | int64 =>
    cases v
    case int i =>
      obtain ⟨h1, h2⟩ := of_decide_eq_true h
      refine ⟨_, rfl, ?_⟩
      show UADPDecoder.decode_int64 (leBytesI 8 i) 0 = some (PyValue.int i, 8)
      simp only [UADPDecoder.decode_int64]
      rw [readBytes_exact _ _ (leBytesI_length 8 i)]
      simp [asSigned_leBytesI_8 i h1 h2]
    all_goals exact Bool.noConfusion h
  | uint64 =>
    cases v
    case int i =>
      obtain ⟨h1, h2⟩ := of_decide_eq_true h
      refine ⟨_, rfl, ?_⟩
      show UADPDecoder.decode_uint64 (leBytesI 8 i) 0 = some (PyValue.int i, 8)
      simp only [UADPDecoder.decode_uint64]
      rw [readBytes_exact _ _ (leBytesI_length 8 i)]
      simp [leVal_leBytesI_u8 i h1 h2]
    all_goals exact Bool.noConfusion h
  | float32 =>
    cases v
    case float bits =>
      have hb := of_decide_eq_true h
      refine ⟨_, rfl, ?_⟩
      show UADPDecoder.decode_float (leBytes 4 bits) 0 = some (PyValue.float bits, 4)
      simp only [UADPDecoder.decode_float]
      rw [readBytes_exact _ _ (leBytes_length 4 bits)]
      simp [leVal_leBytes_n4 bits hb]
    all_goals exact Bool.noConfusion h
  | float64 =>
    cases v
    case float bits =>
      have hb := of_decide_eq_true h
      refine ⟨_, rfl, ?_⟩
      show UADPDecoder.decode_double (leBytes 8 bits) 0 = some (PyValue.float bits, 8)
      simp only [UADPDecoder.decode_double]
      rw [readBytes_exact _ _ (leBytes_length 8 bits)]
      simp [leVal_leBytes_n8 bits hb]
    all_goals exact Bool.noConfusion h
  | string =>
    cases v
    case none => exact ⟨_, rfl, by decide⟩
    case str s =>
      have hs := of_decide_eq_true h
      refine ⟨_, rfl, ?_⟩
      show UADPDecoder.decode_string (leBytesI 4 (s.length : Int) ++ s) 0 =
        some (PyValue.str s, 4 + s.length)
      simp only [UADPDecoder.decode_string]
      rw [readBytes_left _ _ _ (leBytesI_length 4 _)]
      have ha : asSigned 4 (leVal (leBytesI 4 (s.length : Int))) = (s.length : Int) :=
        asSigned_leBytesI_4 _ (by omega) (by omega)
      have hd := List.drop_left (leBytesI 4 (s.length : Int)) s
      rw [leBytesI_length] at hd
      simp only [Option.bind_eq_bind, Option.some_bind, ha]
      rw [if_neg (by omega)]
      norm_num [hd, List.take_length]
    all_goals exact Bool.noConfusion h
  | datetime =>
    cases v
    case int i =>
      obtain ⟨h1, h2⟩ := of_decide_eq_true h
      refine ⟨_, rfl, ?_⟩
      show UADPDecoder.decode_datetime (leBytesI 8 i) 0 = some (PyValue.int i, 8)
      simp only [UADPDecoder.decode_datetime]
      rw [readBytes_exact _ _ (leBytesI_length 8 i)]
      simp [leVal_leBytesI_u8 i h1 h2]
    all_goals exact Bool.noConfusion h
  | bytestring =>
    cases v
    case none => exact ⟨_, rfl, by decide⟩
    case bytes bs =>
      have hs := of_decide_eq_true h
      refine ⟨_, rfl, ?_⟩
      show UADPDecoder.decode_bytestring (leBytesI 4 (bs.length : Int) ++ bs) 0 =
        some (PyValue.bytes bs, 4 + bs.length)
      simp only [UADPDecoder.decode_bytestring]
      rw [readBytes_left _ _ _ (leBytesI_length 4 _)]
      have ha : asSigned 4 (leVal (leBytesI 4 (bs.length : Int))) = (bs.length : Int) :=
        asSigned_leBytesI_4 _ (by omega) (by omega)
      have hd := List.drop_left (leBytesI 4 (bs.length : Int)) bs
      rw [leBytesI_length] at hd
      simp only [Option.bind_eq_bind, Option.some_bind, ha]
      rw [if_neg (by omega)]
      norm_num [hd, List.take_length]
    all_goals exact Bool.noConfusion h

/-- Concrete instance of the round-trip law: Int16 value −5 encodes to
FB FF and decodes back to −5 consuming 2 bytes. -/
theorem scalar_roundtrip_witness :
    (WireType.int16.representable (PyValue.int (-5)) = true) ∧
    ∃ bs, UADPEncoder.encode_value 0 (PyValue.int (-5)) (some WireType.int16.typeId) = some bs ∧
      UADPDecoder.decode_value bs WireType.int16.typeId 0 =
        some (PyValue.int (-5), WireType.int16.decodedOffset (PyValue.int (-5))) :=
  ⟨by decide, scalar_roundtrip 0 WireType.int16 (PyValue.int (-5)) (by decide)⟩

/-- Counterexample to C6 as stated: a String decode whose length prefix
announces 5 bytes over a 2-byte payload does NOT fail — Python slice
clamping returns the 2 truncated bytes and an offset of 9, past the
6-byte buffer. -/
theorem truncated_string_read_counterexample :
    UADPDecoder.decode_string [0x05, 0x00, 0x00, 0x00, 0x61, 0x62] 0 =
      some (PyValue.str [0x61, 0x62], 9) ∧
    ([0x05, 0x00, 0x00, 0x00, 0x61, 0x62] : Bytes).length < 9 := by
  decide

/-- C6 (amended): fixed-width scalar decodes on buffers with fewer than
the required bytes fail deterministically with an error, but String and
ByteString decodes whose non-negative length prefix announces more bytes
than remain do not fail: they return the value built from the remaining
(fewer) bytes with the offset still advanced by 4 plus the announced
length. -/
theorem truncated_read_behavior :
    (∀ (t : WireType) (w : Nat) (data : Bytes) (offset : Nat), t.fixedWidth = some w →
      data.length < offset + w → UADPDecoder.decode_value data t.typeId offset = Option.none) ∧
    (∀ (len : Nat) (payload : Bytes), payload.length < len → len < 2 ^ 31 →
      UADPDecoder.decode_string (leBytes 4 len ++ payload) 0 =
        some (PyValue.str payload, 4 + len)) ∧
    (∀ (len : Nat) (payload : Bytes), payload.length < len → len < 2 ^ 31 →
      UADPDecoder.decode_bytestring (leBytes 4 len ++ payload) 0 =
        some (PyValue.bytes payload, 4 + len)) := by
  refine ⟨?_, ?_, ?_⟩
  · intro t w data offset hf hlen
    cases t with
    | boolean =>
      injection hf with hw
      subst hw
      show UADPDecoder.decode_boolean data offset = Option.none
      simp only [UADPDecoder.decode_boolean, readBytes]
      rw [if_neg (by omega)]
      rfl
    | sbyte =>
      injection hf with hw
      subst hw
      show UADPDecoder.decode_sbyte data offset = Option.none
      simp only [UADPDecoder.decode_sbyte, readBytes]
      rw [if_neg (by omega)]
      rfl
    | byte =>
      injection hf with hw
      subst hw
      show UADPDecoder.decode_byte data offset = Option.none
      simp only [UADPDecoder.decode_byte, readBytes]
      rw [if_neg (by omega)]
      rfl
    | int16 =>
      injection hf with hw
      subst hw
      show UADPDecoder.decode_int16 data offset = Option.none
      simp only [UADPDecoder.decode_int16, readBytes]
      rw [if_neg (by omega)]
      rfl
    | uint16 =>
      injection hf with hw
      subst hw
      show UADPDecoder.decode_uint16 data offset = Option.none
      simp only [UADPDecoder.decode_uint16, readBytes]
      rw [if_neg (by omega)]
      rfl
    | int32 =>
      injection hf with hw
      subst hw
      show UADPDecoder.decode_int32 data offset = Option.none
      simp only [UADPDecoder.decode_int32, readBytes]
      rw [if_neg (by omega)]
      rfl
    | uint32 =>
      injection hf with hw
      subst hw
      show UADPDecoder.decode_uint32 data offset = Option.none
      simp only [UADPDecoder.decode_uint32, readBytes]
      rw [if_neg (by omega)]
      rfl
    | int64 =>
      injection hf with hw
      subst hw
      show UADPDecoder.decode_int64 data offset = Option.none
      simp only [UADPDecoder.decode_int64, readBytes]
      rw [if_neg (by omega)]
      rfl
    | uint64 =>
      injection hf with hw
      subst hw
      show UADPDecoder.decode_uint64 data offset = Option.none
      simp only [UADPDecoder.decode_uint64, readBytes]
      rw [if_neg (by omega)]
      rfl
    | float32 =>
      injection hf with hw
      subst hw
      show UADPDecoder.decode_float data offset = Option.none
      simp only [UADPDecoder.decode_float, readBytes]
      rw [if_neg (by omega)]
      rfl
    | float64 =>
      injection hf with hw
      subst hw
      show UADPDecoder.decode_double data offset = Option.none
      simp only [UADPDecoder.decode_double, readBytes]
      rw [if_neg (by omega)]
      rfl
    | datetime =>
      injection hf with hw
      subst hw
      show UADPDecoder.decode_datetime data offset = Option.none
      simp only [UADPDecoder.decode_datetime, readBytes]
      rw [if_neg (by omega)]
      rfl
    | string => exact Option.noConfusion hf
    | bytestring => exact Option.noConfusion hf
  · intro len payload hlt h31
    have hm := readBytes_left (leBytes 4 len) payload 4 (leBytes_length 4 len)
    simp only [UADPDecoder.decode_string]
    rw [hm]
    have ha : asSigned 4 (leVal (leBytes 4 len)) = (len : Int) := by
      have hv : leVal (leBytes 4 len) = len := by
        simp only [leBytes_eval4, leVal_cons, leVal_nil]
        omega
      rw [hv]
      simp only [asSigned]
      norm_num
      omega
    simp only [Option.bind_eq_bind, Option.some_bind, ha]
    rw [if_neg (by omega)]
    have hd := List.drop_left (leBytes 4 len) payload
    rw [leBytes_length] at hd
    norm_num [hd]
    omega
  · intro len payload hlt h31
    have hm := readBytes_left (leBytes 4 len) payload 4 (leBytes_length 4 len)
    simp only [UADPDecoder.decode_bytestring]
    rw [hm]
    have ha : asSigned 4 (leVal (leBytes 4 len)) = (len : Int) := by
      have hv : leVal (leBytes 4 len) = len := by
        simp only [leBytes_eval4, leVal_cons, leVal_nil]
        omega
      rw [hv]
      simp only [asSigned]
      norm_num
      omega
    simp only [Option.bind_eq_bind, Option.some_bind, ha]
    rw [if_neg (by omega)]
    have hd := List.drop_left (leBytes 4 len) payload
    rw [leBytes_length] at hd
    norm_num [hd]
    omega

/-- Concrete instances of the truncation behavior: an Int32 read on an
empty buffer fails, and a String read announcing 5 bytes over a 2-byte
payload returns the truncated payload at offset 9. -/
theorem truncated_read_behavior_witness :
    (([] : Bytes).length < 0 + 4) ∧
    (([0x61, 0x62] : Bytes).length < 5 ∧ 5 < 2 ^ 31) ∧
    UADPDecoder.decode_value [] OPCUATypes.INT32 0 = Option.none ∧
    UADPDecoder.decode_string (leBytes 4 5 ++ [0x61, 0x62]) 0 =
      some (PyValue.str [0x61, 0x62], 4 + 5) :=
  ⟨by decide, ⟨by decide, by decide⟩,
    truncated_read_behavior.1 WireType.int32 4 [] 0 rfl (by decide),
    truncated_read_behavior.2.1 5 [0x61, 0x62] (by decide) (by decide)⟩

/-- C7: whenever `UADPDataValue.encode` succeeds, the output is one mask
byte whose bit 0 is set, whose bit 1 is set exactly when includeStatus is
requested AND the status code differs from Good, and whose bit 2 is set
exactly when includeTimestamp is requested (regardless of any value);
after the mask come the encoded value, then the 4 status bytes only if
bit 1 is set, then the timestamp bytes only if bit 2 is set. -/
theorem datavalue_encode_mask (now : Nat) (dv : UADPDataValue) (incS incT : Bool)
    (bs : Bytes) (h : UADPDataValue.encode now dv incS incT = some bs) :
    ∃ mask vb tb, UADPEncoder.encode_value now dv.value (some dv.type_id) = some vb ∧
      bs = mask :: (vb ++
        (if incS = true ∧ dv.status_code ≠ StatusCode.GOOD
          then UADPEncoder.encode_status_code dv.status_code else []) ++ tb) ∧
      mask &&& 0x01 = 0x01 ∧
      ((mask &&& 0x02 ≠ 0) ↔ (incS = true ∧ dv.status_code ≠ StatusCode.GOOD)) ∧
      ((mask &&& 0x04 ≠ 0) ↔ incT = true) ∧
      (incT = true → UADPEncoder.encode_datetime now dv.source_timestamp = some tb) ∧
      (incT = false → tb = []) := by
  unfold UADPDataValue.encode at h
  by_cases hS : incS = true ∧ dv.status_code ≠ StatusCode.GOOD
  · by_cases hT : incT = true
    · simp only [if_pos hS, if_pos hT] at h
      norm_num [show (1 ||| 2 ||| 4 : Nat) = 7 from by decide,
        show ((7 : Nat) &&& 4) = 4 from by decide,
        show ((7 : Nat) &&& 2) = 2 from by decide] at h
      rcases hv : UADPEncoder.encode_value now dv.value (some dv.type_id) with _ | vb <;>
        rw [hv] at h
      · simp at h
      · rcases ht : UADPEncoder.encode_datetime now dv.source_timestamp with _ | tb <;>
          rw [ht] at h
        · simp at h
        · simp only [Option.bind_eq_bind, Option.some_bind, Option.some.injEq] at h
          refine ⟨7, vb, tb, rfl, ?_, by decide, ?_, ?_, fun _ => rfl, ?_⟩
          · rw [← h, if_pos hS]
            simp [List.append_assoc]
          · exact ⟨fun _ => hS, fun _ => by decide⟩
          · exact ⟨fun _ => hT, fun _ => by decide⟩
          · intro hF
            rw [hF] at hT
            exact Bool.noConfusion hT
    · simp only [if_pos hS, if_neg hT] at h
      norm_num [show (1 ||| 2 : Nat) = 3 from by decide,
        show (1 ||| 2 ||| 0 : Nat) = 3 from by decide,
        show ((3 : Nat) &&& 4) = 0 from by decide,
        show ((3 : Nat) &&& 2) = 2 from by decide] at h
      rcases hv : UADPEncoder.encode_value now dv.value (some dv.type_id) with _ | vb <;>
        rw [hv] at h
      · simp at h
      · simp only [Option.bind_eq_bind, Option.some_bind, Option.some.injEq] at h
        refine ⟨3, vb, [], rfl, ?_, by decide, ?_, ?_, fun hTT => absurd hTT hT, fun _ => rfl⟩
        · rw [← h, if_pos hS]
          simp [List.append_assoc]
        · exact ⟨fun _ => hS, fun _ => by decide⟩
        · constructor
          · intro hc
            exact absurd (by decide : ¬((3 : Nat) &&& 4 ≠ 0)) (fun hn => hn hc)
          · intro hTT
            exact absurd hTT hT
  · by_cases hT : incT = true
    · simp only [if_neg hS, if_pos hT] at h
      norm_num [show (1 ||| 4 : Nat) = 5 from by decide,
        show (1 ||| 0 ||| 4 : Nat) = 5 from by decide,
        show ((5 : Nat) &&& 4) = 4 from by decide,
        show ((5 : Nat) &&& 2) = 0 from by decide] at h
      rcases hv : UADPEncoder.encode_value now dv.value (some dv.type_id) with _ | vb <;>
        rw [hv] at h
      · simp at h
      · rcases ht : UADPEncoder.encode_datetime now dv.source_timestamp with _ | tb <;>
          rw [ht] at h
        · simp at h
        · simp only [Option.bind_eq_bind, Option.some_bind, Option.some.injEq] at h
          refine ⟨5, vb, tb, rfl, ?_, by decide, ?_, ?_, fun _ => rfl, ?_⟩
          · rw [← h, if_neg hS]
            simp [List.append_assoc]
          · constructor
            · intro hc
              exact absurd (by decide : ¬((5 : Nat) &&& 2 ≠ 0)) (fun hn => hn hc)
            · intro hSS
              exact absurd hSS hS
          · exact ⟨fun _ => hT, fun _ => by decide⟩
          · intro hF
            rw [hF] at hT
            exact Bool.noConfusion hT
    · simp only [if_neg hS, if_neg hT] at h
      norm_num [show (1 ||| 0 ||| 0 : Nat) = 1 from by decide,
        show (1 ||| 0 : Nat) = 1 from by decide,
        show ((1 : Nat) &&& 4) = 0 from by decide,
        show ((1 : Nat) &&& 2) = 0 from by decide] at h
      rcases hv : UADPEncoder.encode_value now dv.value (some dv.type_id) with _ | vb <;>
        rw [hv] at h
      · simp at h
      · simp only [Option.bind_eq_bind, Option.some_bind, Option.some.injEq] at h
        refine ⟨1, vb, [], rfl, ?_, by decide, ?_, ?_, fun hTT => absurd hTT hT, fun _ => rfl⟩
        · rw [← h, if_neg hS]
          simp [List.append_assoc]
        · constructor
          · intro hc
            exact absurd (by decide : ¬((1 : Nat) &&& 2 ≠ 0)) (fun hn => hn hc)
          · intro hSS
            exact absurd hSS hS
        · constructor
          · intro hc
            exact absurd (by decide : ¬((1 : Nat) &&& 4 ≠ 0)) (fun hn => hn hc)
          · intro hTT
            exact absurd hTT hT

/-- Concrete instance of the DataValue mask law: SByte value 5, Bad
status, includeStatus on, includeTimestamp off gives mask 0x03 followed
by the value byte and the 4 status bytes. -/
theorem datavalue_encode_mask_witness :
    UADPDataValue.encode 0 ⟨PyValue.int 5, 2, 0x80000000, PyValue.none⟩ true false =
      some [0x03, 0x05, 0x00, 0x00, 0x00, 0x80] ∧
    (∃ mask vb tb,
      UADPEncoder.encode_value 0 (PyValue.int 5) (some 2) = some vb ∧
      [0x03, 0x05, 0x00, 0x00, 0x00, 0x80] = mask :: (vb ++
        (if true = true ∧ (0x80000000 : Nat) ≠ StatusCode.GOOD
          then UADPEncoder.encode_status_code 0x80000000 else []) ++ tb) ∧
      mask &&& 0x01 = 0x01 ∧
      ((mask &&& 0x02 ≠ 0) ↔ (true = true ∧ (0x80000000 : Nat) ≠ StatusCode.GOOD)) ∧
      ((mask &&& 0x04 ≠ 0) ↔ false = true) ∧
      (false = true → UADPEncoder.encode_datetime 0 PyValue.none = some tb) ∧
      (false = false → tb = [])) :=
  ⟨by decide,
    datavalue_encode_mask 0 ⟨PyValue.int 5, 2, 0x80000000, PyValue.none⟩ true false
      [0x03, 0x05, 0x00, 0x00, 0x00, 0x80] (by decide)⟩

/-- Counterexample to C3's reconstruction clause: for a NetworkMessage
with two DataSetMessages the encoder emits ALL the 16-bit sizes first and
then the messages, so the payload body differs from the concatenation of
(length prefix + bytes) per message. -/
theorem network_payload_not_interleaved :
    UADPNetworkMessage.encode 0
      ⟨PyValue.int 5, 1, [⟨1, 1, [], 1⟩, ⟨2, 2, [], 1⟩], 0, false, false⟩ =
      some ([0x11, 0x00, 0x05] ++
        payload_body [[0x0B, 0x00, 0x01, 0x00], [0x0B, 0x00, 0x02, 0x00]]) ∧
    UADPDataSetMessage.encode 0 ⟨1, 1, [], 1⟩ = some [0x0B, 0x00, 0x01, 0x00] ∧
    UADPDataSetMessage.encode 0 ⟨2, 2, [], 1⟩ = some [0x0B, 0x00, 0x02, 0x00] ∧
    payload_body [[0x0B, 0x00, 0x01, 0x00], [0x0B, 0x00, 0x02, 0x00]] ≠
      payload_body_interleaved [[0x0B, 0x00, 0x01, 0x00], [0x0B, 0x00, 0x02, 0x00]] := by
  decide

/-- C3 (amended): the encoded NetworkMessage is the header bytes followed
by the payload body, where with exactly one (or zero) DataSetMessages the
body is the message bytes with no length prefix, and with two or more it
is all the 16-bit little-endian sizes in message order followed by all
the encoded messages in the same order (sizes first as a block — NOT
interleaved with the messages). -/
theorem network_payload_layout (now : Nat) (m : UADPNetworkMessage) :
    UADPNetworkMessage.encode now m =
      (UADPNetworkMessage.headerBytes m).bind (fun hdr =>
        (m.dataset_messages.mapM (UADPDataSetMessage.encode now)).map
          (fun encs => hdr ++ payload_body encs)) := by
  rcases hpub : UADPNetworkMessage.pubIdBytes m.publisher_id with _ | pub
  · simp [UADPNetworkMessage.encode, UADPNetworkMessage.headerBytes, hpub]
  · rcases hmm : List.mapM (UADPDataSetMessage.encode now) m.dataset_messages with _ | encs
    · have hmm2 : List.mapM.loop (UADPDataSetMessage.encode now) m.dataset_messages [] =
        none := hmm
      cases hb : m.include_payload_header <;>
        rcases hcb : appendByte m.dataset_messages.length with _ | cb <;>
        by_cases hlen : 1 < m.dataset_messages.length <;>
        simp [UADPNetworkMessage.encode, UADPNetworkMessage.headerBytes,
          hpub, hmm, hmm2, hb, hcb, hlen]
    · have hlen2 := mapM_some_length _ _ _ hmm
      have hmm2 : List.mapM.loop (UADPDataSetMessage.encode now) m.dataset_messages [] =
        some encs := hmm
      cases hb : m.include_payload_header <;>
        rcases hcb : appendByte m.dataset_messages.length with _ | cb <;>
        by_cases hlen : 1 < m.dataset_messages.length <;>
        simp [UADPNetworkMessage.encode, UADPNetworkMessage.headerBytes, payload_body,
          hpub, hmm, hmm2, hb, hcb, hlen, hlen2, List.append_assoc]

/-- Counterexample to C10 as stated: a negative integer publisher id is
NOT an integer in 0–255, yet `encode_minimal` does not emit the String
form — the guard is only an upper bound `<= 255`, so −1 takes the Byte
path whose byte append fails (raises), producing no String-tagged output
at all. -/
theorem encode_minimal_negative_pub_counterexample :
    UADPNetworkMessage.encode_minimal 0 ⟨PyValue.int (-1), 1, [], 0, true, true⟩ =
      Option.none ∧
    ¬(0 ≤ (-1 : Int) ∧ (-1 : Int) ≤ 255) := by
  decide

/-- C10 (amended): minimal framing applies the Byte publisher-id path to
every integer id `<= 255` — negative ids included, where the byte append
fails — and for every other publisher id (strings, integers above 255,
and any other shape whose `str()` form is modelled) emits the String
selector 0x04 followed by the UTF-8 bytes of `str(id)` truncated to at
most 16 bytes, length-prefixed; minimal framing never emits the UInt16 or
UInt32 selector. -/
theorem encode_minimal_publisher_encoding (now : Nat) (m : UADPNetworkMessage) :
    (∀ pb bs,
      (match m.publisher_id with
        | PyValue.int i => 255 < i
        | PyValue.bool _ => False
        | _ => True) →
      pyStr m.publisher_id = some pb →
      UADPNetworkMessage.encode_minimal now m = some bs →
      ∃ tail, bs = 0x11 :: 0x04 ::
        (leBytesI 4 ((pb.take 16).length : Int) ++ (pb.take 16 ++ tail)) ∧
        (pb.take 16).length ≤ 16) ∧
    (∀ bs, UADPNetworkMessage.encode_minimal now m = some bs →
      bs.get? 1 = some 0x00 ∨ bs.get? 1 = some 0x04) := by
  constructor
  · intro pb bs hshape hstr henc
    have hpubv : UADPNetworkMessage.minimalPubBytes m.publisher_id =
        some (0x04 :: (leBytesI 4 ((pb.take 16).length : Int) ++ pb.take 16)) := by
      rcases hpid : m.publisher_id with _ | b | i | bits | s | rbs <;>
        rw [hpid] at hshape hstr <;>
        simp only [UADPNetworkMessage.minimalPubBytes]
      · rw [hstr]
        simp
      · exact hshape.elim
      · rw [if_neg (by omega), hstr]
        simp
      · exact Option.noConfusion hstr
      · rw [hstr]
        simp
      · exact Option.noConfusion hstr
    unfold UADPNetworkMessage.encode_minimal at henc
    rw [hpubv] at henc
    rcases hcb : appendByte m.dataset_messages.length with _ | cb <;> rw [hcb] at henc
    · simp at henc
    · rcases hmm : List.mapM (UADPDataSetMessage.encode now) m.dataset_messages
        with _ | encs
      · have hmm2 : List.mapM.loop (UADPDataSetMessage.encode now)
            m.dataset_messages [] = none := hmm
        simp [hmm, hmm2] at henc
      · have hmm2 : List.mapM.loop (UADPDataSetMessage.encode now)
            m.dataset_messages [] = some encs := hmm
        simp only [hmm, hmm2, Option.bind_eq_bind, Option.some_bind, Option.pure_def,
          Option.some.injEq] at henc
        refine ⟨cb ++ encs.flatten, ?_, by simp⟩
        rw [← henc, show (UADPNetworkMessage.VERSION ||| 0x10 : Nat) = 0x11 from by decide]
        simp [List.append_assoc]
  · intro bs henc
    unfold UADPNetworkMessage.encode_minimal at henc
    rcases hpv : UADPNetworkMessage.minimalPubBytes m.publisher_id with _ | pub <;>
      rw [hpv] at henc
    · simp at henc
    · have hhead : pub.get? 0 = some 0x00 ∨ pub.get? 0 = some 0x04 := by
        rcases hpid : m.publisher_id with _ | b | i | bits | s | rbs <;>
          rw [hpid] at hpv <;>
          simp only [UADPNetworkMessage.minimalPubBytes, pyStr] at hpv
        · rw [show (some [78, 111, 110, 101] : Option Bytes).map (fun s =>
              0x04 :: (leBytesI 4 ((s.take 16).length : Int) ++ s.take 16)) =
              some (0x04 :: (leBytesI 4 (4 : Int) ++ [78, 111, 110, 101])) from rfl] at hpv
          injection hpv with hpv2
          rw [← hpv2]
          right
          rfl
        · injection hpv with hpv2
          rw [← hpv2]
          left
          rfl
        · by_cases hle : i ≤ 255
          · rw [if_pos hle] at hpv
            rcases hab : appendByteI i with _ | b2 <;> rw [hab] at hpv
            · exact Option.noConfusion hpv
            · simp only [Option.map_some'] at hpv
              injection hpv with hpv2
              rw [← hpv2]
              left
              rfl
          · rw [if_neg hle] at hpv
            simp only [Option.map_some'] at hpv
            injection hpv with hpv2
            rw [← hpv2]
            right
            rfl
        · exact Option.noConfusion hpv
        · simp only [Option.map_some'] at hpv
          injection hpv with hpv2
          rw [← hpv2]
          right
          rfl
        · exact Option.noConfusion hpv
      have hlen0 : 0 < pub.length := by
        rcases hhead with hh | hh <;>
          · cases pub with
            | nil => exact Option.noConfusion hh
            | cons a l => simp
      rcases hcb : appendByte m.dataset_messages.length with _ | cb <;> rw [hcb] at henc
      · simp at henc
      · rcases hmm : List.mapM (UADPDataSetMessage.encode now) m.dataset_messages
          with _ | encs
        · have hmm2 : List.mapM.loop (UADPDataSetMessage.encode now)
              m.dataset_messages [] = none := hmm
          simp [hmm, hmm2] at henc
        · have hmm2 : List.mapM.loop (UADPDataSetMessage.encode now)
              m.dataset_messages [] = some encs := hmm
          simp only [hmm, hmm2, Option.bind_eq_bind, Option.some_bind, Option.pure_def,
            Option.some.injEq] at henc
          rw [← henc]
          have hg : ((UADPNetworkMessage.VERSION ||| 0x10) ::
              (pub ++ cb ++ encs.flatten)).get? 1 = (pub ++ cb ++ encs.flatten).get? 0 := rfl
          rw [hg, List.append_assoc, List.get?_append hlen0]
          exact hhead

/-- Concrete instance of the minimal publisher encoding law: string id
"ESP" gives the String selector 0x04, length 3 and the id bytes, followed
by the count byte. -/
theorem encode_minimal_publisher_encoding_witness :
    UADPNetworkMessage.encode_minimal 0 ⟨PyValue.str [69, 83, 80], 1, [], 0, true, true⟩ =
      some [0x11, 0x04, 0x03, 0x00, 0x00, 0x00, 0x45, 0x53, 0x50, 0x00] ∧
    pyStr (PyValue.str [69, 83, 80]) = some [69, 83, 80] ∧
    (∃ tail, [0x11, 0x04, 0x03, 0x00, 0x00, 0x00, 0x45, 0x53, 0x50, 0x00] = 0x11 :: 0x04 ::
      (leBytesI 4 ((([69, 83, 80] : Bytes).take 16).length : Int) ++
        (([69, 83, 80] : Bytes).take 16 ++ tail)) ∧
      (([69, 83, 80] : Bytes).take 16).length ≤ 16) :=
  ⟨by decide, rfl,
    (encode_minimal_publisher_encoding 0 ⟨PyValue.str [69, 83, 80], 1, [], 0, true, true⟩).1
      [69, 83, 80] [0x11, 0x04, 0x03, 0x00, 0x00, 0x00, 0x45, 0x53, 0x50, 0x00]
      trivial rfl (by decide)⟩

end OpcuaUadp
